import Mathlib

/-!
# Verification of the transportation-optimization core

A shallow embedding of the model-building and solving layer of
`distribution_optimizer.py` (class `TransportationOptimizer`), together with
proofs about it.  The embedding mirrors the Python source:

* catalog rows (`Warehouse`, `Mode`, `Route`) and the `OptimizationInput`
  value object keep the source's field names;
* Python dictionaries built by comprehension or repeated assignment are
  modelled by association lists with Python's insertion semantics
  (`dictInsert` / `dictOfPairs`): the key keeps its first-occurrence
  position and the value of a duplicated key is the value last assigned;
* the two `pulp` programs are modelled as explicit lists of linear
  constraints (`LinCon`) over a variable alphabet `Var`; `pulp` numerics are
  modelled by `ℚ`;
* `int(...)` truncation of solver output is modelled by `pyInt`, and the
  result-extraction code of `TransportationOptimizer.solve` by
  `extractCostModel` / `extractTimeModel`.
-/

/-- A warehouse-catalog row (`wh_capacity` table): name, capacity,
current stock level. -/
structure Warehouse where
  warehouse_name : String
  capacity : ℚ
  stock_level : ℚ
deriving DecidableEq

/-- A transport-mode row (`tp_capacity` table): name and cargo weight moved
per vehicle per trip. -/
structure Mode where
  mode_name : String
  weight_capacity : ℚ
deriving DecidableEq

/-- A route-catalog row (`tp_route` table).  `lead_time` is the
`lead_time (days)` column (a positive integer per the data contract), and
`total_cost` the cost per vehicle trip. -/
structure Route where
  origin : String
  destination : String
  mode_name : String
  lead_time : ℤ
  total_cost : ℚ
deriving DecidableEq

/-- The `OptimizationInput` dataclass.  `max_vehicles` is a Python dict keyed
by (warehouse, mode) pairs; it is modelled as its item list (keys pairwise
distinct in any dict-produced instance). -/
structure OptimizationInput where
  total_demand : ℤ
  max_delivery_time : ℤ
  selected_warehouses : List String
  max_vehicles : List ((String × String) × ℕ)
deriving DecidableEq

/-! ## Python dictionaries as association lists -/

/-- Lookup in an association list: the value of the first entry with the
given key (`None` when absent). -/
def alookup {α : Type} {β : Type} [DecidableEq α] (l : List (α × β)) (k : α) : Option β :=
  (l.find? (fun p => decide (p.1 = k))).map Prod.snd

/-- One Python dict assignment `d[k] = v`: an existing key keeps its
position and gets the new value, a new key is appended. -/
def dictInsert {α : Type} {β : Type} [DecidableEq α] (d : List (α × β)) (k : α) (v : β) :
    List (α × β) :=
  if k ∈ d.map Prod.fst then d.map (fun p => if p.1 = k then (k, v) else p) else d ++ [(k, v)]

/-- The Python dict built by inserting the pairs of `l` in order (as a dict
comprehension or a `for` loop of assignments does): first-occurrence key
order, last-assigned values. -/
def dictOfPairs {α : Type} {β : Type} [DecidableEq α] (l : List (α × β)) : List (α × β) :=
  l.foldl (fun d p => dictInsert d p.1 p.2) []

theorem alookup_nil {α β : Type} [DecidableEq α] (k : α) : alookup ([] : List (α × β)) k = none := rfl

theorem alookup_cons {α β : Type} [DecidableEq α] (p : α × β) (l : List (α × β)) (k : α) :
    alookup (p :: l) k = if p.1 = k then some p.2 else alookup l k := by
  by_cases h : p.1 = k <;> simp [alookup, List.find?_cons, h]

theorem alookup_append {α β : Type} [DecidableEq α] (l₁ l₂ : List (α × β)) (k : α) :
    alookup (l₁ ++ l₂) k = (alookup l₁ k).or (alookup l₂ k) := by
  simp only [alookup, List.find?_append]
  cases List.find? (fun p => decide (p.1 = k)) l₁ <;> simp

theorem alookup_eq_none {α β : Type} [DecidableEq α] (l : List (α × β)) (k : α) :
    alookup l k = none ↔ k ∉ l.map Prod.fst := by
  induction l with
  | nil => simp [alookup_nil]
  | cons p l ih =>
    rw [alookup_cons]
    by_cases h : p.1 = k
    · subst h; simp
    · have h2 : ¬k = p.1 := fun hh => h hh.symm
      simp [if_neg h, ih, h2]

theorem alookup_isSome {α β : Type} [DecidableEq α] (l : List (α × β)) (k : α) :
    (alookup l k).isSome ↔ k ∈ l.map Prod.fst := by
  rcases h : alookup l k with _ | b
  · simp [(alookup_eq_none l k).mp h]
  · simp only [Option.isSome_some, true_iff]
    by_contra hk
    rw [(alookup_eq_none l k).mpr hk] at h
    exact Option.noConfusion h

/-- Looking the updated key up in the key-updating map of `dictInsert`'s
"existing key" branch. -/
theorem alookup_updateVal_self {α β : Type} [DecidableEq α] (d : List (α × β)) (k : α) (v : β) :
    alookup (d.map (fun p => if p.1 = k then (k, v) else p)) k =
      if k ∈ d.map Prod.fst then some v else none := by
  induction d with
  | nil => simp [alookup_nil]
  | cons p d ih =>
    simp only [List.map_cons]
    by_cases hp : p.1 = k
    · rw [if_pos hp, alookup_cons, if_pos rfl]
      have hmem : k ∈ p.1 :: d.map Prod.fst := by simp [hp]
      simp only [List.map_cons] at *
      rw [if_pos hmem]
    · rw [if_neg hp, alookup_cons, if_neg hp, ih]
      have h2 : ¬k = p.1 := fun hh => hp hh.symm
      by_cases hd : k ∈ d.map Prod.fst
      · rw [if_pos hd, if_pos (by simp [hd])]
      · rw [if_neg hd, if_neg (by simp [h2, hd])]

/-- Looking a different key up in the key-updating map of `dictInsert`'s
"existing key" branch. -/
theorem alookup_updateVal_other {α β : Type} [DecidableEq α] (d : List (α × β)) (k : α) (v : β)
    (k' : α) (hne : k' ≠ k) :
    alookup (d.map (fun p => if p.1 = k then (k, v) else p)) k' = alookup d k' := by
  induction d with
  | nil => rfl
  | cons p d ih =>
    simp only [List.map_cons]
    by_cases hp : p.1 = k
    · rw [if_pos hp, alookup_cons, alookup_cons, if_neg (fun h => hne h.symm), ih,
        if_neg (fun h => hne (hp ▸ h).symm)]
    · rw [if_neg hp, alookup_cons, alookup_cons, ih]

theorem alookup_dictInsert {α β : Type} [DecidableEq α] (d : List (α × β)) (k : α) (v : β)
    (k' : α) :
    alookup (dictInsert d k v) k' = if k' = k then some v else alookup d k' := by
  unfold dictInsert
  by_cases hmem : k ∈ d.map Prod.fst
  · rw [if_pos hmem]
    by_cases hk : k' = k
    · subst hk
      rw [alookup_updateVal_self, if_pos hmem, if_pos rfl]
    · rw [alookup_updateVal_other d k v k' hk, if_neg hk]
  · rw [if_neg hmem, alookup_append]
    by_cases hk : k' = k
    · subst hk
      rw [(alookup_eq_none d k').mpr hmem, if_pos rfl]
      simp [alookup_cons]
    · rw [if_neg hk, alookup_cons, if_neg (fun h => hk h.symm), alookup_nil]
      cases alookup d k' <;> rfl

theorem option_or_none {β : Type} (a : Option β) : a.or none = a := by cases a <;> rfl

theorem option_or_some_or {β : Type} (a : Option β) (b : β) (c : Option β) :
    (a.or (some b)).or c = a.or (some b) := by cases a <;> rfl

theorem alookup_foldl_dictInsert {α β : Type} [DecidableEq α] (l : List (α × β))
    (d : List (α × β)) (k : α) :
    alookup (l.foldl (fun d p => dictInsert d p.1 p.2) d) k =
      (alookup l.reverse k).or (alookup d k) := by
  induction l generalizing d with
  | nil => simp [alookup_nil]
  | cons p l ih =>
    simp only [List.foldl_cons, List.reverse_cons, ih, alookup_append, alookup_dictInsert,
      alookup_cons, alookup_nil]
    by_cases hk : k = p.1
    · rw [if_pos hk, if_pos hk.symm, option_or_some_or]
    · rw [if_neg hk, if_neg (fun h => hk h.symm), option_or_none]

/-- The central fact about Python dict construction: looking up a key yields
the value of the LAST pair of the underlying list carrying that key. -/
theorem alookup_dictOfPairs {α β : Type} [DecidableEq α] (l : List (α × β)) (k : α) :
    alookup (dictOfPairs l) k = alookup l.reverse k := by
  rw [dictOfPairs, alookup_foldl_dictInsert, alookup_nil]
  cases alookup l.reverse k <;> rfl

theorem mem_keys_iff_alookup {α β : Type} [DecidableEq α] (l : List (α × β)) (k : α) :
    k ∈ l.map Prod.fst ↔ (alookup l k).isSome := (alookup_isSome l k).symm

/-- A key is a key of the Python dict iff it is a key of the pair list the
dict was built from. -/
theorem mem_keys_dictOfPairs {α β : Type} [DecidableEq α] (l : List (α × β)) (k : α) :
    k ∈ (dictOfPairs l).map Prod.fst ↔ k ∈ l.map Prod.fst := by
  rw [mem_keys_iff_alookup, alookup_dictOfPairs, ← mem_keys_iff_alookup, List.map_reverse,
    List.mem_reverse]

/-- Association-list lookup over a catalog mapped to (key, value) pairs is a
`find?` over the catalog. -/
theorem alookup_map_pair {α β γ : Type} [DecidableEq α] (f : γ → α) (g : γ → β)
    (l : List γ) (k : α) :
    alookup (l.map (fun c => (f c, g c))) k = (l.find? (fun c => decide (f c = k))).map g := by
  induction l with
  | nil => rfl
  | cons c l ih =>
    by_cases h : f c = k
    · simp [alookup_cons, List.find?_cons, h]
    · simp only [List.map_cons, alookup_cons, if_neg h, ih, List.find?_cons]
      simp [h]

/-! ## Route-validity filtering (`TransportationOptimizer._get_valid_routes`) -/

/-- `_get_valid_routes`: walk the route catalog in order and keep, as a
`(warehouse, mode, cost)` triple, every row whose destination is a selected
warehouse, whose lead time is within the allowed delivery time, and whose
`(warehouse, mode)` pair is a key of `max_vehicles`. -/
def getValidRoutes (routes : List Route) (inp : OptimizationInput) :
    List (String × String × ℚ) :=
  routes.filterMap fun r =>
    if r.destination ∈ inp.selected_warehouses ∧ r.lead_time ≤ inp.max_delivery_time ∧
        (r.destination, r.mode_name) ∈ inp.max_vehicles.map Prod.fst
    then some (r.destination, r.mode_name, r.total_cost) else none

/-- The `route_costs` dict of `build_cost_model` (also the cost part of
`route_info` in `build_time_model`): a dict comprehension over the valid
routes, keyed by `(warehouse, mode)`. -/
def routeCosts (routes : List Route) (inp : OptimizationInput) :
    List ((String × String) × ℚ) :=
  dictOfPairs ((getValidRoutes routes inp).map fun t => ((t.1, t.2.1), t.2.2))

/-- The eligible-edge set: the keys of `route_costs`, in first-occurrence
order. -/
def eligibleEdges (routes : List Route) (inp : OptimizationInput) :
    List (String × String) :=
  (routeCosts routes inp).map Prod.fst

/-! ## Linear programs -/

/-- The decision variables of the two programs: `Shipment_(wh,mode)`
(integer, lower bound 0), `Route_Used_(wh,mode)` (binary, time model only),
and `Max_Delivery_Time` (continuous, lower bound 0, time model only). -/
inductive Var where
  | ship : String → String → Var
  | used : String → String → Var
  | maxTime : Var
deriving DecidableEq

/-- Direction of a linear inequality. -/
inductive ConRel where
  | le : ConRel
  | ge : ConRel
deriving DecidableEq

/-- One linear constraint `Σ coeff·var ⟨rel⟩ rhs`, with the `pulp` constraint
name recorded. -/
structure LinCon where
  lhs : List (Var × ℚ)
  rel : ConRel
  rhs : ℚ
  cname : String

/-- Value of a linear combination under an assignment. -/
def evalLin (x : Var → ℚ) (l : List (Var × ℚ)) : ℚ :=
  (l.map fun p => p.2 * x p.1).sum

/-- An assignment satisfies one linear constraint. -/
def satCon (x : Var → ℚ) (c : LinCon) : Prop :=
  match c.rel with
  | ConRel.le => evalLin x c.lhs ≤ c.rhs
  | ConRel.ge => c.rhs ≤ evalLin x c.lhs

/-- An assignment satisfies every constraint of a list. -/
def SatAll (x : Var → ℚ) (cons : List LinCon) : Prop :=
  ∀ c ∈ cons, satCon x c

/-- `q` is a non-negative integer value (the range of an integral `pulp`
variable with lower bound 0). -/
def IsNatVal (q : ℚ) : Prop := ∃ n : ℕ, q = (n : ℚ)

/-- `q` is an integer value. -/
def IsIntVal (q : ℚ) : Prop := ∃ n : ℤ, q = (n : ℚ)

/-! ## The shared constraint set (`TransportationOptimizer._add_constraints`) -/

/-- The `vehicle_capacities` dict: `dict(zip(modes['mode_name'],
modes['weight_capacity']))`. -/
def vehicleCapacities (modes : List Mode) : List (String × ℚ) :=
  dictOfPairs (modes.map fun m => (m.mode_name, m.weight_capacity))

/-- `vehicle_capacities[mode]`.  The Python lookup raises on a mode missing
from the validated modes table; the embedding totalises it with 0, and every
mode referenced in this development's catalogs is present. -/
def modeWeight (modes : List Mode) (m : String) : ℚ :=
  (alookup (vehicleCapacities modes) m).getD 0

/-- The `warehouse_info` dict: warehouse name to (capacity, stock level). -/
def warehouseInfo (whs : List Warehouse) : List (String × (ℚ × ℚ)) :=
  dictOfPairs (whs.map fun w => (w.warehouse_name, (w.capacity, w.stock_level)))

/-- `_add_constraints`: the single demand constraint, then one capacity
constraint for every selected warehouse found in the warehouse table, then
one vehicle-ceiling constraint for every `max_vehicles` entry whose key is a
shipment variable (an eligible edge). -/
def addConstraints (modes : List Mode) (whs : List Warehouse) (inp : OptimizationInput)
    (edges : List (String × String)) : List LinCon :=
  let demandCon : LinCon :=
    ⟨edges.map fun e => (Var.ship e.1 e.2, modeWeight modes e.2), ConRel.ge,
      (inp.total_demand : ℚ), "Total_Demand"⟩
  let capCons : List LinCon := inp.selected_warehouses.filterMap fun wh =>
    match alookup (warehouseInfo whs) wh with
    | some info => some
        ⟨(edges.filter fun e => decide (e.1 = wh)).map
            (fun e => (Var.ship e.1 e.2, modeWeight modes e.2)),
          ConRel.le, max 0 (info.1 - info.2), "Capacity_" ++ wh⟩
    | none => none
  let vehCons : List LinCon := inp.max_vehicles.filterMap fun p =>
    if p.1 ∈ edges then some
        (⟨[(Var.ship p.1.1 p.1.2, 1)], ConRel.le, (p.2 : ℚ),
          "Max_Vehicles_" ++ p.1.1 ++ "_" ++ p.1.2⟩ : LinCon)
    else none
  demandCon :: (capCons ++ vehCons)

/-! ## The cost model (`TransportationOptimizer.build_cost_model`) -/

/-- The cost-minimisation program: its integer shipment variables (one per
eligible edge, lower bound 0), its linear objective (minimised), and its
constraints. -/
structure CostProgram where
  shipVars : List (String × String)
  objective : List (Var × ℚ)
  constraints : List LinCon

/-- `build_cost_model`: `None` when no valid route survives the filter,
otherwise the program with objective `Σ shipments[e]·cost[e]` (costs from the
`route_costs` dict) and the shared constraints. -/
def buildCostModel (routes : List Route) (modes : List Mode) (whs : List Warehouse)
    (inp : OptimizationInput) : Option CostProgram :=
  if getValidRoutes routes inp = [] then none
  else
    some ⟨eligibleEdges routes inp,
      (routeCosts routes inp).map fun p => (Var.ship p.1.1 p.1.2, p.2),
      addConstraints modes whs inp (eligibleEdges routes inp)⟩

/-! ## The time model (`TransportationOptimizer.build_time_model`) -/

/-- The first route-catalog row with the given destination and mode
(`routes[(destination == wh) & (mode_name == mode)].iloc[0]`). -/
def routeRowFirst (routes : List Route) (wh m : String) : Option Route :=
  routes.find? fun r => decide (r.destination = wh ∧ r.mode_name = m)

/-- The `lead_time (days)` of the first matching catalog row (the
`lead_times[(wh, mode)]` lookup; 0 when no row matches, where Python would
raise). -/
def leadTimeOf (routes : List Route) (wh m : String) : ℤ :=
  ((routeRowFirst routes wh m).map Route.lead_time).getD 0

/-- The `total_cost` of the first matching catalog row (the lookup used by
result extraction; 0 when no row matches, where Python would raise). -/
def costOf (routes : List Route) (wh m : String) : ℚ :=
  ((routeRowFirst routes wh m).map Route.total_cost).getD 0

/-- Python's `max` over a list of values (meaningful on a non-empty list, as
in `max(lead_times.values())`). -/
def listMax (l : List ℤ) : ℤ := l.foldl max (l.headD 0)

/-- The time-minimisation program: eligible edges, the big-M constant, and
the full constraint list.  Its variables are the integer `shipments[e] ≥ 0`,
the binary `route_used[e]`, and the continuous objective variable
`max_time ≥ 0`. -/
structure TimeProgram where
  edges : List (String × String)
  bigM : ℤ
  constraints : List LinCon

/-- The `lead_times` dict of `build_time_model`: per eligible edge, the lead
time of the first matching row of the FULL route catalog. -/
def timeLeadTimes (routes : List Route) (inp : OptimizationInput) :
    List ((String × String) × ℤ) :=
  (eligibleEdges routes inp).map fun e => (e, leadTimeOf routes e.1 e.2)

/-- `M = max(lead_times.values()) + 1`. -/
def timeBigM (routes : List Route) (inp : OptimizationInput) : ℤ :=
  listMax ((timeLeadTimes routes inp).map Prod.snd) + 1

/-- `route_used[e]*0.0001 <= shipments[e]`, in moved-to-the-left form:
`0.0001·used[e] − shipments[e] ≤ 0`. -/
def linkLowerCon (e : String × String) : LinCon :=
  ⟨[(Var.used e.1 e.2, 1 / 10000), (Var.ship e.1 e.2, -1)], ConRel.le, 0,
    "Route_Used_Lower_" ++ e.1 ++ "_" ++ e.2⟩

/-- `route_used[e]*M >= shipments[e]`, in moved-to-the-left form:
`M·used[e] − shipments[e] ≥ 0`. -/
def linkUpperCon (M : ℤ) (e : String × String) : LinCon :=
  ⟨[(Var.used e.1 e.2, (M : ℚ)), (Var.ship e.1 e.2, -1)], ConRel.ge, 0,
    "Route_Used_Upper_" ++ e.1 ++ "_" ++ e.2⟩

/-- `max_time >= lead_time - M*(1 - route_used[e])`, in moved-to-the-left
form: `max_time − M·used[e] ≥ lead_time − M`. -/
def maxTimeCon (M lead : ℤ) (e : String × String) : LinCon :=
  ⟨[(Var.maxTime, 1), (Var.used e.1 e.2, -(M : ℚ))], ConRel.ge,
    (lead : ℚ) - (M : ℚ), "Max_Time_" ++ e.1 ++ "_" ++ e.2⟩

/-- The per-edge linkage constraints, in edge order: the lower and upper
linkage of each edge. -/
def timeLinkCons (routes : List Route) (inp : OptimizationInput) : List LinCon :=
  (eligibleEdges routes inp).flatMap fun e =>
    [linkLowerCon e, linkUpperCon (timeBigM routes inp) e]

/-- The per-edge objective-bounding constraints, in edge order. -/
def timeMaxCons (routes : List Route) (inp : OptimizationInput) : List LinCon :=
  (timeLeadTimes routes inp).map fun p => maxTimeCon (timeBigM routes inp) p.2 p.1

/-- `build_time_model`: `None` when no valid route survives the filter;
otherwise the program whose constraints are, in order, the linkage pairs,
the objective-bounding constraints, and the shared constraints of
`_add_constraints`.  (The objective, minimised, is the single variable
`max_time`.) -/
def buildTimeModel (routes : List Route) (modes : List Mode) (whs : List Warehouse)
    (inp : OptimizationInput) : Option TimeProgram :=
  if getValidRoutes routes inp = [] then none
  else
    some ⟨eligibleEdges routes inp, timeBigM routes inp,
      timeLinkCons routes inp ++ timeMaxCons routes inp ++
        addConstraints modes whs inp (eligibleEdges routes inp)⟩

/-- A full assignment is feasible for the built time program: shipment
variables take non-negative integer values, indicator variables are binary,
the objective variable is non-negative, and every constraint holds. -/
def TimeFeasible (P : TimeProgram) (x : Var → ℚ) : Prop :=
  (∀ e ∈ P.edges, IsNatVal (x (Var.ship e.1 e.2))) ∧
    (∀ e ∈ P.edges, x (Var.used e.1 e.2) = 0 ∨ x (Var.used e.1 e.2) = 1) ∧
    0 ≤ x Var.maxTime ∧ SatAll x P.constraints

/-- A full assignment is feasible for the built cost program. -/
def CostFeasible (P : CostProgram) (x : Var → ℚ) : Prop :=
  (∀ e ∈ P.shipVars, IsNatVal (x (Var.ship e.1 e.2))) ∧ SatAll x P.constraints

/-! ## Solving and result extraction (`TransportationOptimizer.solve`) -/

/-- What the external MILP solver hands back: its terminal status string
(`LpStatus[model.status]`: one of "Optimal", "Infeasible", "Unbounded",
"Undefined", "Not Solved") and the numeric value of every variable. -/
structure SolverOutcome where
  status : String
  values : Var → ℚ

/-- One model's entry of the result dict.  The nested
`solution[warehouse][mode]` dict is flattened to its `(edge, count)` pairs
(edge keys are distinct, so nothing is lost); `max_lead_time` is `none` for
the cost model, whose result dict carries no such key. -/
structure ModelResult where
  status : String
  plan : List ((String × String) × ℤ)
  total_cost : Option ℚ
  max_lead_time : Option ℤ
deriving DecidableEq

/-- Python's `int(...)` on a numeric solver value: truncation toward zero. -/
def pyInt (q : ℚ) : ℤ := if 0 ≤ q then ⌊q⌋ else ⌈q⌉

/-- Cost-model result extraction: on an `Optimal` status, keep every edge
whose truncated value is strictly positive and re-sum the cost from the
catalog (first matching row); on any other status, propagate the status with
an empty plan and no total. -/
def extractCostModel (routes : List Route) (edges : List (String × String))
    (out : SolverOutcome) : ModelResult :=
  if out.status = "Optimal" then
    let plan := edges.filterMap fun e =>
      let val := pyInt (out.values (Var.ship e.1 e.2))
      if 0 < val then some (e, val) else none
    let total := (plan.map fun p => (p.2 : ℚ) * costOf routes p.1.1 p.1.2).sum
    ⟨"Optimal", plan, some total, none⟩
  else ⟨out.status, [], none, none⟩

/-- Time-model result extraction: as for the cost model, plus the
recomputed `max_lead_time`, a running maximum (started at 0) over the edges
whose RAW (untruncated) solver value is strictly positive. -/
def extractTimeModel (routes : List Route) (edges : List (String × String))
    (out : SolverOutcome) : ModelResult :=
  if out.status = "Optimal" then
    let plan := edges.filterMap fun e =>
      let val := pyInt (out.values (Var.ship e.1 e.2))
      if 0 < val then some (e, val) else none
    let total := (plan.map fun p => (p.2 : ℚ) * costOf routes p.1.1 p.1.2).sum
    let ml := edges.foldl
      (fun acc e => if 0 < out.values (Var.ship e.1 e.2) then max acc (leadTimeOf routes e.1 e.2)
        else acc) 0
    ⟨"Optimal", plan, some total, some ml⟩
  else ⟨out.status, [], none, none⟩

/-- `TransportationOptimizer.solve`, parameterised by the external solver
(one oracle per program shape): build each model; when a builder returns
`None`, report status "Infeasible" with an empty plan and absent totals
without consulting the solver; otherwise run the solver on the built program
and extract.  Returns (cost result, time result). -/
def runSolve (routes : List Route) (modes : List Mode) (whs : List Warehouse)
    (inp : OptimizationInput) (costSolver : CostProgram → SolverOutcome)
    (timeSolver : TimeProgram → SolverOutcome) : ModelResult × ModelResult :=
  let costRes := match buildCostModel routes modes whs inp with
    | none => ⟨"Infeasible", [], none, none⟩
    | some P => extractCostModel routes P.shipVars (costSolver P)
  let timeRes := match buildTimeModel routes modes whs inp with
    | none => ⟨"Infeasible", [], none, none⟩
    | some P => extractTimeModel routes P.edges (timeSolver P)
  (costRes, timeRes)

/-! ## Spec-side formulations

Definitions following the wording of the specification (§4.1–§4.2), used to
state refinement theorems against the code-derived definitions above.  Where
the code resolves duplicate catalog rows through Python dict overwriting,
the spec-side form names the row explicitly: the dict value of a key is the
LAST matching row, i.e. the first matching row of the reversed table. -/

/-- Spec §4.2: `weight_capacity[mode(edge)]`, reading the modes table (the
row that prevails under the code's dict construction is the last one with
that name). -/
def specModeWeight (modes : List Mode) (m : String) : ℚ :=
  ((modes.reverse.find? fun md => decide (md.mode_name = m)).map Mode.weight_capacity).getD 0

/-- The warehouse-table row a name resolves to (the last row with that name,
which is what the code's `warehouse_info` dict holds). -/
def specWarehouseRow (whs : List Warehouse) (wh : String) : Option Warehouse :=
  whs.reverse.find? fun w => decide (w.warehouse_name = wh)

/-- Spec §3: `available_capacity = max(0, capacity - stock_level)`. -/
def availableCapacity (w : Warehouse) : ℚ := max 0 (w.capacity - w.stock_level)

/-- The constraint set of spec §4.2, with the capacity family amended to
what the code builds: the single demand constraint
`Σ shipments[e]·weight_capacity[mode(e)] ≥ total_demand`; ONE CAPACITY
CONSTRAINT PER SELECTED WAREHOUSE PRESENT IN THE WAREHOUSE TABLE (when the
warehouse has no eligible edge the inbound sum is empty and the constraint
is vacuous — the spec instead promises one constraint per selected warehouse
with at least one eligible edge); and one vehicle-ceiling constraint
`shipments[e] ≤ max_vehicles[e]` per `max_vehicles` entry that is an
eligible edge. -/
def specConstraintSet (routes : List Route) (modes : List Mode) (whs : List Warehouse)
    (inp : OptimizationInput) : List LinCon :=
  let edges := eligibleEdges routes inp
  let demandCon : LinCon :=
    ⟨edges.map fun e => (Var.ship e.1 e.2, specModeWeight modes e.2), ConRel.ge,
      (inp.total_demand : ℚ), "Total_Demand"⟩
  let capCons : List LinCon := inp.selected_warehouses.filterMap fun wh =>
    (specWarehouseRow whs wh).map fun w =>
      ⟨(edges.filter fun e => decide (e.1 = wh)).map
          (fun e => (Var.ship e.1 e.2, specModeWeight modes e.2)),
        ConRel.le, availableCapacity w, "Capacity_" ++ wh⟩
  let vehCons : List LinCon := inp.max_vehicles.filterMap fun p =>
    if p.1 ∈ edges then some
        (⟨[(Var.ship p.1.1 p.1.2, 1)], ConRel.le, (p.2 : ℚ),
          "Max_Vehicles_" ++ p.1.1 ++ "_" ++ p.1.2⟩ : LinCon)
    else none
  demandCon :: (capCons ++ vehCons)

theorem modeWeight_eq_spec (modes : List Mode) (m : String) :
    modeWeight modes m = specModeWeight modes m := by
  unfold modeWeight specModeWeight vehicleCapacities
  rw [alookup_dictOfPairs, ← List.map_reverse, alookup_map_pair]

theorem warehouseInfo_alookup (whs : List Warehouse) (wh : String) :
    alookup (warehouseInfo whs) wh =
      (specWarehouseRow whs wh).map fun w => (w.capacity, w.stock_level) := by
  unfold warehouseInfo specWarehouseRow
  rw [alookup_dictOfPairs, ← List.map_reverse, alookup_map_pair]

/-- The shared constraints the code attaches are exactly the (amended)
spec-side constraint set, once the edge list is the eligible-edge set. -/
theorem addConstraints_eq_spec (routes : List Route) (modes : List Mode)
    (whs : List Warehouse) (inp : OptimizationInput) :
    addConstraints modes whs inp (eligibleEdges routes inp) =
      specConstraintSet routes modes whs inp := by
  simp only [addConstraints, specConstraintSet]
  rw [show modeWeight modes = specModeWeight modes from funext (modeWeight_eq_spec modes)]
  congr 1
  congr 1
  refine congrArg (fun f => List.filterMap f inp.selected_warehouses) (funext fun wh => ?_)
  rw [warehouseInfo_alookup]
  cases specWarehouseRow whs wh <;> rfl

/-! ## Structural lemmas about the builders -/

theorem buildCostModel_some {routes : List Route} {modes : List Mode} {whs : List Warehouse}
    {inp : OptimizationInput} {P : CostProgram}
    (h : buildCostModel routes modes whs inp = some P) :
    P = ⟨eligibleEdges routes inp,
      (routeCosts routes inp).map fun p => (Var.ship p.1.1 p.1.2, p.2),
      addConstraints modes whs inp (eligibleEdges routes inp)⟩ := by
  unfold buildCostModel at h
  split at h
  · exact Option.noConfusion h
  · exact (Option.some.inj h).symm

theorem buildTimeModel_some {routes : List Route} {modes : List Mode} {whs : List Warehouse}
    {inp : OptimizationInput} {P : TimeProgram}
    (h : buildTimeModel routes modes whs inp = some P) :
    P = ⟨eligibleEdges routes inp, timeBigM routes inp,
      timeLinkCons routes inp ++ timeMaxCons routes inp ++
        addConstraints modes whs inp (eligibleEdges routes inp)⟩ := by
  unfold buildTimeModel at h
  split at h
  · exact Option.noConfusion h
  · exact (Option.some.inj h).symm

theorem le_foldl_max (l : List ℤ) (a : ℤ) : a ≤ l.foldl max a := by
  induction l generalizing a with
  | nil => exact le_refl a
  | cons b l ih => exact le_trans (le_max_left a b) (ih (max a b))

theorem mem_le_foldl_max (l : List ℤ) (a b : ℤ) (h : b ∈ l) : b ≤ l.foldl max a := by
  induction l generalizing a with
  | nil => cases h
  | cons c l ih =>
    rcases List.mem_cons.mp h with rfl | h
    · exact le_trans (le_max_right a b) (le_foldl_max l (max a b))
    · exact ih (max a c) h

/-- Every element of a list is at most its `listMax`. -/
theorem mem_le_listMax (l : List ℤ) (b : ℤ) (h : b ∈ l) : b ≤ listMax l :=
  mem_le_foldl_max l (l.headD 0) b h

/-! ## Eligibility characterisation -/

theorem mem_getValidRoutes (routes : List Route) (inp : OptimizationInput)
    (t : String × String × ℚ) :
    t ∈ getValidRoutes routes inp ↔ ∃ r ∈ routes,
      (r.destination ∈ inp.selected_warehouses ∧ r.lead_time ≤ inp.max_delivery_time ∧
        (r.destination, r.mode_name) ∈ inp.max_vehicles.map Prod.fst) ∧
      (r.destination, r.mode_name, r.total_cost) = t := by
  unfold getValidRoutes
  rw [List.mem_filterMap]
  constructor
  · rintro ⟨r, hr, hf⟩
    split at hf
    · exact ⟨r, hr, by assumption, Option.some.inj hf⟩
    · exact Option.noConfusion hf
  · rintro ⟨r, hr, hc, ht⟩
    exact ⟨r, hr, by rw [if_pos hc, ht]⟩

theorem mem_eligibleEdges (routes : List Route) (inp : OptimizationInput) (wh m : String) :
    (wh, m) ∈ eligibleEdges routes inp ↔ ∃ r ∈ routes,
      r.destination = wh ∧ r.mode_name = m ∧ wh ∈ inp.selected_warehouses ∧
      r.lead_time ≤ inp.max_delivery_time ∧ (wh, m) ∈ inp.max_vehicles.map Prod.fst := by
  unfold eligibleEdges routeCosts
  rw [mem_keys_dictOfPairs, List.map_map]
  constructor
  · rintro h
    obtain ⟨t, ht, hmk⟩ := List.mem_map.mp h
    obtain ⟨r, hr, hc, hrt⟩ := (mem_getValidRoutes routes inp t).mp ht
    subst hrt
    simp only [Function.comp_apply, Prod.mk.injEq] at hmk
    obtain ⟨hd, hm⟩ := hmk
    exact ⟨r, hr, hd, hm, hd ▸ hc.1, hc.2.1, by rw [← hd, ← hm]; exact hc.2.2⟩
  · rintro ⟨r, hr, hd, hm, hsel, hlt, hmv⟩
    refine List.mem_map.mpr ⟨(r.destination, r.mode_name, r.total_cost),
      (mem_getValidRoutes routes inp _).mpr ⟨r, hr, ⟨hd ▸ hsel, hlt, by rw [hd, hm]; exact hmv⟩, rfl⟩, ?_⟩
    simp only [Function.comp_apply, Prod.mk.injEq]
    exact ⟨hd, hm⟩

/-- **C6.**  A `(warehouse, mode)` pair belongs to the eligible-edge set if
and only if some catalog route has that destination and mode, the
destination is a selected warehouse, the route's lead time is at most
`max_delivery_time`, and the pair is a key of `max_vehicles`; nothing else
affects eligibility. -/
theorem claim6_eligibility_iff (routes : List Route) (inp : OptimizationInput)
    (wh m : String) :
    (wh, m) ∈ eligibleEdges routes inp ↔ ∃ r ∈ routes,
      r.destination = wh ∧ r.mode_name = m ∧ wh ∈ inp.selected_warehouses ∧
      r.lead_time ≤ inp.max_delivery_time ∧ (wh, m) ∈ inp.max_vehicles.map Prod.fst :=
  mem_eligibleEdges routes inp wh m

/-! ## The big-M linkage (claim C2) -/

theorem linkLowerCon_mem (routes : List Route) (inp : OptimizationInput)
    (e : String × String) (he : e ∈ eligibleEdges routes inp) :
    linkLowerCon e ∈ timeLinkCons routes inp :=
  List.mem_flatMap.mpr ⟨e, he, by simp⟩

theorem linkUpperCon_mem (routes : List Route) (inp : OptimizationInput)
    (e : String × String) (he : e ∈ eligibleEdges routes inp) :
    linkUpperCon (timeBigM routes inp) e ∈ timeLinkCons routes inp :=
  List.mem_flatMap.mpr ⟨e, he, by simp⟩

theorem maxTimeCon_mem (routes : List Route) (inp : OptimizationInput)
    (e : String × String) (he : e ∈ eligibleEdges routes inp) :
    maxTimeCon (timeBigM routes inp) (leadTimeOf routes e.1 e.2) e ∈ timeMaxCons routes inp := by
  unfold timeMaxCons timeLeadTimes
  rw [List.map_map]
  exact List.mem_map.mpr ⟨e, he, rfl⟩

/-- Each eligible edge's looked-up lead time is below the big-M constant. -/
theorem leadTimeOf_le_bigM (routes : List Route) (inp : OptimizationInput)
    (e : String × String) (he : e ∈ eligibleEdges routes inp) :
    leadTimeOf routes e.1 e.2 ≤ timeBigM routes inp - 1 := by
  have hmem : leadTimeOf routes e.1 e.2 ∈ (timeLeadTimes routes inp).map Prod.snd := by
    unfold timeLeadTimes
    rw [List.map_map]
    exact List.mem_map.mpr ⟨e, he, rfl⟩
  have h2 := mem_le_listMax _ _ hmem
  unfold timeBigM
  omega

/-- The pure logic of the big-M linkage triple on one edge. -/
theorem linkage_logic (M lead : ℤ) (e : String × String) (x : Var → ℚ)
    (hNat : IsNatVal (x (Var.ship e.1 e.2)))
    (hBin : x (Var.used e.1 e.2) = 0 ∨ x (Var.used e.1 e.2) = 1)
    (_hLow : satCon x (linkLowerCon e))
    (hUp : satCon x (linkUpperCon M e))
    (hMax : satCon x (maxTimeCon M lead e)) :
    (x (Var.used e.1 e.2) = 0 → x (Var.ship e.1 e.2) = 0) ∧
    (0 < x (Var.ship e.1 e.2) → x (Var.used e.1 e.2) = 1) ∧
    (x (Var.used e.1 e.2) = 1 → (lead : ℚ) ≤ x Var.maxTime) := by
  obtain ⟨n, hn⟩ := hNat
  simp only [satCon, evalLin, linkLowerCon, linkUpperCon, maxTimeCon, List.map_cons,
    List.map_nil, List.sum_cons, List.sum_nil] at hUp hMax
  have hzero : x (Var.used e.1 e.2) = 0 → x (Var.ship e.1 e.2) = 0 := by
    intro h0
    rw [h0] at hUp
    have hge : (0 : ℚ) ≤ x (Var.ship e.1 e.2) := by rw [hn]; positivity
    have hle : x (Var.ship e.1 e.2) ≤ 0 := by linarith
    exact le_antisymm hle hge
  refine ⟨hzero, ?_, ?_⟩
  · intro hpos
    rcases hBin with h0 | h1
    · exact absurd (hzero h0) (by linarith)
    · exact h1
  · intro h1
    rw [h1] at hMax
    linarith

/-- **C2.**  In the time model, `M = max(lead_time over eligible edges) + 1`
and the tolerance is `0.0001 = 1e-4`; for every eligible edge the program
contains the linkage pair `0.0001·used[e] ≤ shipments[e]`,
`shipments[e] ≤ M·used[e]`, and the bound
`max_time ≥ lead_time[e] − M·(1 − used[e])`; the constraint's right side
`lead_time[e] − M` is strictly negative whenever `used[e] = 0` (so it is
vacuous there, `max_time` being non-negative); and every assignment with
integer `shipments[e] ≥ 0`, binary `used[e]` and `max_time ≥ 0` satisfying
the three constraints has `used[e] = 0 → shipments[e] = 0`,
`shipments[e] > 0 → used[e] = 1`, and `used[e] = 1 → max_time ≥ lead_time[e]`. -/
theorem claim2_time_model_linkage (routes : List Route) (modes : List Mode)
    (whs : List Warehouse) (inp : OptimizationInput) (P : TimeProgram) (e : String × String)
    (hP : buildTimeModel routes modes whs inp = some P) (he : e ∈ P.edges) :
    P.bigM = listMax (P.edges.map fun d => leadTimeOf routes d.1 d.2) + 1 ∧
    (1 / 10000 : ℚ) = 0.0001 ∧
    linkLowerCon e ∈ P.constraints ∧
    linkUpperCon P.bigM e ∈ P.constraints ∧
    maxTimeCon P.bigM (leadTimeOf routes e.1 e.2) e ∈ P.constraints ∧
    (leadTimeOf routes e.1 e.2 : ℚ) - (P.bigM : ℚ) < 0 ∧
    ∀ x : Var → ℚ, IsNatVal (x (Var.ship e.1 e.2)) →
      (x (Var.used e.1 e.2) = 0 ∨ x (Var.used e.1 e.2) = 1) → 0 ≤ x Var.maxTime →
      satCon x (linkLowerCon e) → satCon x (linkUpperCon P.bigM e) →
      satCon x (maxTimeCon P.bigM (leadTimeOf routes e.1 e.2) e) →
      ((x (Var.used e.1 e.2) = 0 → x (Var.ship e.1 e.2) = 0) ∧
        (0 < x (Var.ship e.1 e.2) → x (Var.used e.1 e.2) = 1) ∧
        (x (Var.used e.1 e.2) = 1 → (leadTimeOf routes e.1 e.2 : ℚ) ≤ x Var.maxTime)) := by
  obtain rfl := buildTimeModel_some hP
  simp only at he ⊢
  have hlead := leadTimeOf_le_bigM routes inp e he
  refine ⟨?_, by norm_num, ?_, ?_, ?_, ?_, ?_⟩
  · unfold timeBigM timeLeadTimes
    rw [List.map_map]
    rfl
  · exact List.mem_append_left _ (List.mem_append_left _ (linkLowerCon_mem routes inp e he))
  · exact List.mem_append_left _ (List.mem_append_left _ (linkUpperCon_mem routes inp e he))
  · exact List.mem_append_left _ (List.mem_append_right _ (maxTimeCon_mem routes inp e he))
  · have : (leadTimeOf routes e.1 e.2 : ℚ) ≤ (timeBigM routes inp : ℚ) - 1 := by
      exact_mod_cast Int.cast_le.mpr hlead
    linarith
  · intro x hNat hBin hT hL hU hM
    exact linkage_logic (timeBigM routes inp) (leadTimeOf routes e.1 e.2) e x hNat hBin hL hU hM

/-! ## The fixed Scenario A/B instance of the specification (§8) -/

def scWarehouses : List Warehouse := [⟨"A", 1000, 200⟩, ⟨"B", 500, 0⟩]

def scModes : List Mode := [⟨"Truck", 10⟩, ⟨"Rail", 50⟩]

def scRoutes : List Route :=
  [⟨"P", "A", "Rail", 5, 80⟩, ⟨"P", "A", "Truck", 2, 100⟩, ⟨"P", "B", "Truck", 1, 120⟩]

def scInput : OptimizationInput :=
  ⟨300, 5, ["A", "B"], [(("A", "Rail"), 10), (("A", "Truck"), 20), (("B", "Truck"), 15)]⟩

/-- The cost program the builder produces on the scenario instance. -/
def scCostProgram : CostProgram :=
  ⟨eligibleEdges scRoutes scInput,
    (routeCosts scRoutes scInput).map fun p => (Var.ship p.1.1 p.1.2, p.2),
    addConstraints scModes scWarehouses scInput (eligibleEdges scRoutes scInput)⟩

/-- The time program the builder produces on the scenario instance. -/
def scTimeProgram : TimeProgram :=
  ⟨eligibleEdges scRoutes scInput, timeBigM scRoutes scInput,
    timeLinkCons scRoutes scInput ++ timeMaxCons scRoutes scInput ++
      addConstraints scModes scWarehouses scInput (eligibleEdges scRoutes scInput)⟩

theorem scCostProgram_built :
    buildCostModel scRoutes scModes scWarehouses scInput = some scCostProgram := rfl

theorem scTimeProgram_built :
    buildTimeModel scRoutes scModes scWarehouses scInput = some scTimeProgram := rfl

theorem sc_edges :
    eligibleEdges scRoutes scInput = [("A", "Rail"), ("A", "Truck"), ("B", "Truck")] := rfl

theorem sc_bigM : timeBigM scRoutes scInput = 6 := rfl

/-- Witness for C2 at the scenario instance and edge `("A", "Rail")`. -/
theorem claim2_witness :
    scTimeProgram.bigM = listMax (scTimeProgram.edges.map fun d => leadTimeOf scRoutes d.1 d.2) + 1 ∧
    (1 / 10000 : ℚ) = 0.0001 ∧
    linkLowerCon ("A", "Rail") ∈ scTimeProgram.constraints ∧
    linkUpperCon scTimeProgram.bigM ("A", "Rail") ∈ scTimeProgram.constraints ∧
    maxTimeCon scTimeProgram.bigM (leadTimeOf scRoutes "A" "Rail") ("A", "Rail") ∈
      scTimeProgram.constraints ∧
    (leadTimeOf scRoutes "A" "Rail" : ℚ) - (scTimeProgram.bigM : ℚ) < 0 ∧
    ∀ x : Var → ℚ, IsNatVal (x (Var.ship "A" "Rail")) →
      (x (Var.used "A" "Rail") = 0 ∨ x (Var.used "A" "Rail") = 1) → 0 ≤ x Var.maxTime →
      satCon x (linkLowerCon ("A", "Rail")) →
      satCon x (linkUpperCon scTimeProgram.bigM ("A", "Rail")) →
      satCon x (maxTimeCon scTimeProgram.bigM (leadTimeOf scRoutes "A" "Rail") ("A", "Rail")) →
      ((x (Var.used "A" "Rail") = 0 → x (Var.ship "A" "Rail") = 0) ∧
        (0 < x (Var.ship "A" "Rail") → x (Var.used "A" "Rail") = 1) ∧
        (x (Var.used "A" "Rail") = 1 → (leadTimeOf scRoutes "A" "Rail" : ℚ) ≤ x Var.maxTime)) :=
  claim2_time_model_linkage scRoutes scModes scWarehouses scInput scTimeProgram ("A", "Rail")
    rfl (by decide)

/-- **C1 (amended).**  The constraint set `_add_constraints` attaches to both
programs consists of exactly: the single global demand constraint
`Σ shipments[e]·weight_capacity[mode(e)] ≥ total_demand`; one capacity
constraint bounding each warehouse's inbound weight by
`available_capacity = max(0, capacity − stock_level)` for EVERY SELECTED
WAREHOUSE PRESENT IN THE WAREHOUSE TABLE (the spec instead said: for every
selected warehouse with at least one eligible edge — but a selected
warehouse without eligible edges still receives a vacuous constraint); and
one vehicle-ceiling constraint `shipments[e] ≤ max_vehicles[e]` per
`max_vehicles` entry keyed by an eligible edge.  The shipment variables are
exactly the eligible edges (integer, lower bound 0): the whole constraint
list of the cost program is the spec-side set, and the same set is the
final segment of the time program's constraint list. -/
theorem claim1_shared_constraints (routes : List Route) (modes : List Mode)
    (whs : List Warehouse) (inp : OptimizationInput) (Pc : CostProgram) (Pt : TimeProgram)
    (hc : buildCostModel routes modes whs inp = some Pc)
    (ht : buildTimeModel routes modes whs inp = some Pt) :
    Pc.shipVars = eligibleEdges routes inp ∧
    Pc.constraints = specConstraintSet routes modes whs inp ∧
    specConstraintSet routes modes whs inp <:+ Pt.constraints := by
  obtain rfl := buildCostModel_some hc
  obtain rfl := buildTimeModel_some ht
  refine ⟨rfl, addConstraints_eq_spec routes modes whs inp, ?_⟩
  exact ⟨timeLinkCons routes inp ++ timeMaxCons routes inp,
    by rw [addConstraints_eq_spec]⟩

/-- Witness for C1 at the scenario instance. -/
theorem claim1_witness :
    scCostProgram.shipVars = eligibleEdges scRoutes scInput ∧
    scCostProgram.constraints = specConstraintSet scRoutes scModes scWarehouses scInput ∧
    specConstraintSet scRoutes scModes scWarehouses scInput <:+ scTimeProgram.constraints :=
  claim1_shared_constraints scRoutes scModes scWarehouses scInput scCostProgram scTimeProgram
    rfl rfl

/-! ### Counterexample instance for C1's capacity-constraint count:
warehouse "B" is selected and in the warehouse table but has no eligible
edge, yet the built program still carries a (vacuous) `Capacity_B`
constraint. -/

def cxWarehouses : List Warehouse := [⟨"A", 10, 0⟩, ⟨"B", 10, 0⟩]

def cxModes : List Mode := [⟨"T", 4⟩]

def cxRoutes : List Route := [⟨"P", "A", "T", 1, 5⟩]

def cxInput : OptimizationInput := ⟨5, 5, ["A", "B"], [(("A", "T"), 3)]⟩

def cxCostProgram : CostProgram :=
  ⟨eligibleEdges cxRoutes cxInput,
    (routeCosts cxRoutes cxInput).map fun p => (Var.ship p.1.1 p.1.2, p.2),
    addConstraints cxModes cxWarehouses cxInput (eligibleEdges cxRoutes cxInput)⟩

theorem cx_constraints :
    cxCostProgram.constraints =
      [⟨[(Var.ship "A" "T", 4)], ConRel.ge, ((5 : ℤ) : ℚ), "Total_Demand"⟩,
        ⟨[(Var.ship "A" "T", 4)], ConRel.le, max 0 ((10 : ℚ) - 0), "Capacity_A"⟩,
        ⟨[], ConRel.le, max 0 ((10 : ℚ) - 0), "Capacity_B"⟩,
        ⟨[(Var.ship "A" "T", 1)], ConRel.le, ((3 : ℕ) : ℚ), "Max_Vehicles_A_T"⟩] := rfl

/-- Counterexample to C1 as stated: on the `cx` instance the built cost
program carries a capacity constraint for warehouse "B" (with an empty
inbound sum) although no eligible edge is destined to "B" — so the
constraint set does NOT consist of one capacity constraint per selected
warehouse with at least one eligible edge only. -/
theorem claim1_counterexample :
    buildCostModel cxRoutes cxModes cxWarehouses cxInput = some cxCostProgram ∧
    (⟨[], ConRel.le, max 0 ((10 : ℚ) - 0), "Capacity_B"⟩ : LinCon) ∈ cxCostProgram.constraints ∧
    ¬ ∃ e ∈ eligibleEdges cxRoutes cxInput, e.1 = "B" := by
  refine ⟨rfl, ?_, by decide⟩
  rw [cx_constraints]
  exact List.mem_cons_of_mem _ (List.mem_cons_of_mem _ (List.mem_cons_self _ _))

/-- The time program on the scenario instance, fully evaluated: `M = 6`, and
each edge's shipments are capped at `M·used[e] ≤ 6` by the upper linkage. -/
theorem sc_time_constraints :
    scTimeProgram.constraints =
      [⟨[(Var.used "A" "Rail", 1 / 10000), (Var.ship "A" "Rail", -1)], ConRel.le, 0,
          "Route_Used_Lower_A_Rail"⟩,
        ⟨[(Var.used "A" "Rail", ((6 : ℤ) : ℚ)), (Var.ship "A" "Rail", -1)], ConRel.ge, 0,
          "Route_Used_Upper_A_Rail"⟩,
        ⟨[(Var.used "A" "Truck", 1 / 10000), (Var.ship "A" "Truck", -1)], ConRel.le, 0,
          "Route_Used_Lower_A_Truck"⟩,
        ⟨[(Var.used "A" "Truck", ((6 : ℤ) : ℚ)), (Var.ship "A" "Truck", -1)], ConRel.ge, 0,
          "Route_Used_Upper_A_Truck"⟩,
        ⟨[(Var.used "B" "Truck", 1 / 10000), (Var.ship "B" "Truck", -1)], ConRel.le, 0,
          "Route_Used_Lower_B_Truck"⟩,
        ⟨[(Var.used "B" "Truck", ((6 : ℤ) : ℚ)), (Var.ship "B" "Truck", -1)], ConRel.ge, 0,
          "Route_Used_Upper_B_Truck"⟩,
        ⟨[(Var.maxTime, 1), (Var.used "A" "Rail", -((6 : ℤ) : ℚ))], ConRel.ge,
          ((5 : ℤ) : ℚ) - ((6 : ℤ) : ℚ), "Max_Time_A_Rail"⟩,
        ⟨[(Var.maxTime, 1), (Var.used "A" "Truck", -((6 : ℤ) : ℚ))], ConRel.ge,
          ((2 : ℤ) : ℚ) - ((6 : ℤ) : ℚ), "Max_Time_A_Truck"⟩,
        ⟨[(Var.maxTime, 1), (Var.used "B" "Truck", -((6 : ℤ) : ℚ))], ConRel.ge,
          ((1 : ℤ) : ℚ) - ((6 : ℤ) : ℚ), "Max_Time_B_Truck"⟩,
        ⟨[(Var.ship "A" "Rail", 50), (Var.ship "A" "Truck", 10), (Var.ship "B" "Truck", 10)],
          ConRel.ge, ((300 : ℤ) : ℚ), "Total_Demand"⟩,
        ⟨[(Var.ship "A" "Rail", 50), (Var.ship "A" "Truck", 10)], ConRel.le,
          max 0 ((1000 : ℚ) - 200), "Capacity_A"⟩,
        ⟨[(Var.ship "B" "Truck", 10)], ConRel.le, max 0 ((500 : ℚ) - 0), "Capacity_B"⟩,
        ⟨[(Var.ship "A" "Rail", 1)], ConRel.le, ((10 : ℕ) : ℚ), "Max_Vehicles_A_Rail"⟩,
        ⟨[(Var.ship "A" "Truck", 1)], ConRel.le, ((20 : ℕ) : ℚ), "Max_Vehicles_A_Truck"⟩,
        ⟨[(Var.ship "B" "Truck", 1)], ConRel.le, ((15 : ℕ) : ℚ), "Max_Vehicles_B_Truck"⟩] := rfl

/-- The cost program's constraints on the scenario instance (the shared
constraint set alone). -/
theorem sc_cost_constraints :
    scCostProgram.constraints =
      [⟨[(Var.ship "A" "Rail", 50), (Var.ship "A" "Truck", 10), (Var.ship "B" "Truck", 10)],
          ConRel.ge, ((300 : ℤ) : ℚ), "Total_Demand"⟩,
        ⟨[(Var.ship "A" "Rail", 50), (Var.ship "A" "Truck", 10)], ConRel.le,
          max 0 ((1000 : ℚ) - 200), "Capacity_A"⟩,
        ⟨[(Var.ship "B" "Truck", 10)], ConRel.le, max 0 ((500 : ℚ) - 0), "Capacity_B"⟩,
        ⟨[(Var.ship "A" "Rail", 1)], ConRel.le, ((10 : ℕ) : ℚ), "Max_Vehicles_A_Rail"⟩,
        ⟨[(Var.ship "A" "Truck", 1)], ConRel.le, ((20 : ℕ) : ℚ), "Max_Vehicles_A_Truck"⟩,
        ⟨[(Var.ship "B" "Truck", 1)], ConRel.le, ((15 : ℕ) : ℚ), "Max_Vehicles_B_Truck"⟩] := rfl

/-- The best the BUILT time program can actually do on the scenario:
6 Rail vehicles from A, `max_time = 5`. -/
def scTimeOpt : Var → ℚ := fun v =>
  if v = Var.ship "A" "Rail" then 6
  else if v = Var.used "A" "Rail" then 1
  else if v = Var.maxTime then 5
  else 0

theorem scTimeOpt_shipAR : scTimeOpt (Var.ship "A" "Rail") = 6 := rfl
theorem scTimeOpt_shipAT : scTimeOpt (Var.ship "A" "Truck") = 0 := rfl
theorem scTimeOpt_shipBT : scTimeOpt (Var.ship "B" "Truck") = 0 := rfl
theorem scTimeOpt_usedAR : scTimeOpt (Var.used "A" "Rail") = 1 := rfl
theorem scTimeOpt_usedAT : scTimeOpt (Var.used "A" "Truck") = 0 := rfl
theorem scTimeOpt_usedBT : scTimeOpt (Var.used "B" "Truck") = 0 := rfl
theorem scTimeOpt_maxT : scTimeOpt Var.maxTime = 5 := rfl

/-- The plan the specification expects from Scenario B
(`B:Truck = 15`, `A:Truck = 15`), as a cost-program assignment. -/
def scClaimPlan : Var → ℚ := fun v =>
  if v = Var.ship "B" "Truck" then 15
  else if v = Var.ship "A" "Truck" then 15
  else 0

theorem scClaimPlan_shipAR : scClaimPlan (Var.ship "A" "Rail") = 0 := rfl
theorem scClaimPlan_shipAT : scClaimPlan (Var.ship "A" "Truck") = 15 := rfl
theorem scClaimPlan_shipBT : scClaimPlan (Var.ship "B" "Truck") = 15 := rfl

/-- What the built time program really permits on the scenario: each edge's
shipment count is at most 6 (= M), and the objective can never go below 5,
because meeting the demand forces the Rail edge on. -/
theorem sc_time_bounds (x : Var → ℚ) (hx : TimeFeasible scTimeProgram x) :
    x (Var.ship "A" "Rail") ≤ 6 ∧ x (Var.ship "A" "Truck") ≤ 6 ∧
    x (Var.ship "B" "Truck") ≤ 6 ∧ 5 ≤ x Var.maxTime := by
  obtain ⟨hNat, hBin, hT, hSat⟩ := hx
  rw [sc_time_constraints] at hSat
  simp only [SatAll, List.forall_mem_cons, List.forall_mem_nil, and_true] at hSat
  obtain ⟨h1, h2, h3, h4, h5, h6, h7, h8, h9, h10, h11, h12, h13, h14, h15⟩ := hSat
  simp only [satCon, evalLin, List.map_cons, List.map_nil, List.sum_cons,
    List.sum_nil] at h1 h2 h3 h4 h5 h6 h7 h8 h9 h10 h11 h12 h13 h14 h15
  push_cast at h2 h4 h6 h7 h10
  have hbAR := hBin ("A", "Rail") (by decide)
  have hbAT := hBin ("A", "Truck") (by decide)
  have hbBT := hBin ("B", "Truck") (by decide)
  simp only at hbAR hbAT hbBT
  have hsAR : x (Var.ship "A" "Rail") ≤ 6 := by
    rcases hbAR with h | h <;> rw [h] at h2 <;> linarith
  have hsAT : x (Var.ship "A" "Truck") ≤ 6 := by
    rcases hbAT with h | h <;> rw [h] at h4 <;> linarith
  have hsBT : x (Var.ship "B" "Truck") ≤ 6 := by
    rcases hbBT with h | h <;> rw [h] at h6 <;> linarith
  refine ⟨hsAR, hsAT, hsBT, ?_⟩
  rcases hbAR with h | h
  · rw [h] at h2
    linarith
  · rw [h] at h7
    linarith

/-- The 6-Rail-vehicles assignment is feasible for the built time program. -/
theorem scTimeOpt_feasible : TimeFeasible scTimeProgram scTimeOpt := by
  refine ⟨?_, ?_, ?_, ?_⟩
  · intro e he
    have hedges : scTimeProgram.edges = [("A", "Rail"), ("A", "Truck"), ("B", "Truck")] := rfl
    rw [hedges] at he
    simp only [List.mem_cons, List.not_mem_nil, or_false] at he
    rcases he with rfl | rfl | rfl
    · exact ⟨6, by rw [scTimeOpt_shipAR]; norm_num⟩
    · exact ⟨0, by rw [scTimeOpt_shipAT]; norm_num⟩
    · exact ⟨0, by rw [scTimeOpt_shipBT]; norm_num⟩
  · intro e he
    have hedges : scTimeProgram.edges = [("A", "Rail"), ("A", "Truck"), ("B", "Truck")] := rfl
    rw [hedges] at he
    simp only [List.mem_cons, List.not_mem_nil, or_false] at he
    rcases he with rfl | rfl | rfl
    · exact Or.inr scTimeOpt_usedAR
    · exact Or.inl scTimeOpt_usedAT
    · exact Or.inl scTimeOpt_usedBT
  · rw [scTimeOpt_maxT]; norm_num
  · rw [sc_time_constraints]
    simp only [SatAll, List.forall_mem_cons, List.forall_mem_nil, and_true, satCon, evalLin,
      List.map_cons, List.map_nil, List.sum_cons, List.sum_nil, scTimeOpt_shipAR,
      scTimeOpt_shipAT, scTimeOpt_shipBT, scTimeOpt_usedAR, scTimeOpt_usedAT,
      scTimeOpt_usedBT, scTimeOpt_maxT]
    norm_num

/-- The spec's Scenario-B plan is feasible for the SHARED (cost-program)
constraints: demand, capacity and the vehicle ceilings all hold with
`B:Truck = 15`, `A:Truck = 15`. -/
theorem scClaimPlan_cost_feasible : CostFeasible scCostProgram scClaimPlan := by
  refine ⟨?_, ?_⟩
  · intro e he
    have hedges : scCostProgram.shipVars = [("A", "Rail"), ("A", "Truck"), ("B", "Truck")] := rfl
    rw [hedges] at he
    simp only [List.mem_cons, List.not_mem_nil, or_false] at he
    rcases he with rfl | rfl | rfl
    · exact ⟨0, by rw [scClaimPlan_shipAR]; norm_num⟩
    · exact ⟨15, by rw [scClaimPlan_shipAT]; norm_num⟩
    · exact ⟨15, by rw [scClaimPlan_shipBT]; norm_num⟩
  · rw [sc_cost_constraints]
    simp only [SatAll, List.forall_mem_cons, List.forall_mem_nil, and_true, satCon, evalLin,
      List.map_cons, List.map_nil, List.sum_cons, List.sum_nil, scClaimPlan_shipAR,
      scClaimPlan_shipAT, scClaimPlan_shipBT]
    norm_num

/-- **C4 (code bug).**  In the built time program the vehicle ceiling is NOT
the only effective upper bound on a shipment variable: on the scenario
instance `max_vehicles[("B","Truck")] = 15`, the value 15 satisfies all the
shared constraints (demand and capacity permit it — `scClaimPlan` is
feasible for the cost program and ships 15 on that edge), yet the time
model's linkage constraint `shipments ≤ M·used` with `M = max lead time + 1
= 6` caps every feasible time-program assignment at
`shipments[("B","Truck")] ≤ 6 < 15`. -/
theorem claim4_ceiling_not_only_bound :
    alookup scInput.max_vehicles ("B", "Truck") = some 15 ∧
    (∀ x : Var → ℚ, TimeFeasible scTimeProgram x → x (Var.ship "B" "Truck") ≤ 6) ∧
    (6 : ℚ) < 15 ∧
    CostFeasible scCostProgram scClaimPlan ∧
    scClaimPlan (Var.ship "B" "Truck") = 15 := by
  refine ⟨rfl, ?_, by norm_num, scClaimPlan_cost_feasible, rfl⟩
  intro x hx
  exact (sc_time_bounds x hx).2.2.1

/-! ## Extraction lemmas -/

/-- `int(...)` of an integer-valued number is that integer. -/
theorem pyInt_intCast (n : ℤ) : pyInt ((n : ℤ) : ℚ) = n := by
  unfold pyInt
  split
  · exact Int.floor_intCast n
  · exact Int.ceil_intCast n

/-- `int(...)` truncates a value strictly between 0 and 1 to 0. -/
theorem pyInt_unit_interval (q : ℚ) (h0 : 0 < q) (h1 : q < 1) : pyInt q = 0 := by
  unfold pyInt
  rw [if_pos h0.le, Int.floor_eq_zero_iff]
  exact Set.mem_Ico.mpr ⟨h0.le, h1⟩

/-- **C9.**  When the solver status is not `Optimal` (`Infeasible`,
`Unbounded` or `Undefined`), both extractors return that status verbatim
with an empty plan and absent `total_cost` (and, for the time model, absent
`max_lead_time`); extraction is a total function, so no exception arises. -/
theorem claim9_nonoptimal_propagation (routes : List Route)
    (edges : List (String × String)) (out : SolverOutcome)
    (h : out.status = "Infeasible" ∨ out.status = "Unbounded" ∨ out.status = "Undefined") :
    extractCostModel routes edges out = ⟨out.status, [], none, none⟩ ∧
    extractTimeModel routes edges out = ⟨out.status, [], none, none⟩ := by
  have hne : ¬out.status = "Optimal" := by
    rcases h with h | h | h <;> rw [h] <;> decide
  unfold extractCostModel extractTimeModel
  rw [if_neg hne, if_neg hne]
  exact ⟨rfl, rfl⟩

/-- Witness for C9: an `Unbounded` solve of the scenario catalog. -/
theorem claim9_witness :
    extractCostModel scRoutes (eligibleEdges scRoutes scInput) ⟨"Unbounded", fun _ => 0⟩ =
      ⟨"Unbounded", [], none, none⟩ ∧
    extractTimeModel scRoutes (eligibleEdges scRoutes scInput) ⟨"Unbounded", fun _ => 0⟩ =
      ⟨"Unbounded", [], none, none⟩ :=
  claim9_nonoptimal_propagation scRoutes (eligibleEdges scRoutes scInput)
    ⟨"Unbounded", fun _ => 0⟩ (Or.inr (Or.inl rfl))

/-- **C3 (amended).**  With an empty eligible-edge set both builders
short-circuit: the result is independent of the solver oracles (the solver
is never invoked) and each model's result has an empty plan and absent
totals — but its status is the string "Infeasible", the same label the
solver's infeasible outcome gets, NOT a distinct `NoEligibleRoutes`
status. -/
theorem claim3_no_eligible_routes (routes : List Route) (modes : List Mode)
    (whs : List Warehouse) (inp : OptimizationInput)
    (cs ts : CostProgram → SolverOutcome) (tm tm2 : TimeProgram → SolverOutcome)
    (h : getValidRoutes routes inp = []) :
    runSolve routes modes whs inp cs tm =
      (⟨"Infeasible", [], none, none⟩, ⟨"Infeasible", [], none, none⟩) ∧
    runSolve routes modes whs inp cs tm = runSolve routes modes whs inp ts tm2 := by
  have h1 : buildCostModel routes modes whs inp = none := by
    unfold buildCostModel; rw [if_pos h]
  have h2 : buildTimeModel routes modes whs inp = none := by
    unfold buildTimeModel; rw [if_pos h]
  unfold runSolve
  rw [h1, h2]
  exact ⟨rfl, rfl⟩

/-- An input with an empty `max_vehicles` dict: no edge can be eligible. -/
def c3Input : OptimizationInput := ⟨100, 5, ["A"], []⟩

/-- Witness for C3 at a concrete empty-eligible instance, with two different
solver oracles. -/
theorem claim3_witness :
    runSolve scRoutes scModes scWarehouses c3Input (fun _ => ⟨"Optimal", fun _ => 9⟩)
        (fun _ => ⟨"Optimal", fun _ => 9⟩) =
      (⟨"Infeasible", [], none, none⟩, ⟨"Infeasible", [], none, none⟩) ∧
    runSolve scRoutes scModes scWarehouses c3Input (fun _ => ⟨"Optimal", fun _ => 9⟩)
        (fun _ => ⟨"Optimal", fun _ => 9⟩) =
      runSolve scRoutes scModes scWarehouses c3Input (fun _ => ⟨"Undefined", fun _ => 0⟩)
        (fun _ => ⟨"Undefined", fun _ => 0⟩) :=
  claim3_no_eligible_routes scRoutes scModes scWarehouses c3Input _ _ _ _ rfl

/-- Counterexample to C3 as stated: the short-circuit result's status is
"Infeasible", not a first-class `NoEligibleRoutes` status. -/
theorem claim3_counterexample :
    (runSolve scRoutes scModes scWarehouses c3Input (fun _ => ⟨"Optimal", fun _ => 9⟩)
        (fun _ => ⟨"Optimal", fun _ => 9⟩)).1.status = "Infeasible" ∧
    (runSolve scRoutes scModes scWarehouses c3Input (fun _ => ⟨"Optimal", fun _ => 9⟩)
        (fun _ => ⟨"Optimal", fun _ => 9⟩)).2.status = "Infeasible" ∧
    "Infeasible" ≠ "NoEligibleRoutes" :=
  ⟨rfl, rfl, by decide⟩

/-- The running `max(acc, ...)`-under-`if` loop of the extractor equals a
maximum over the filtered edge list. -/
theorem foldl_max_if_eq_filter {α : Type} (p : α → Prop) [DecidablePred p] (f : α → ℤ)
    (l : List α) (a : ℤ) :
    l.foldl (fun acc e => if p e then max acc (f e) else acc) a =
      ((l.filter fun e => decide (p e)).map f).foldl max a := by
  induction l generalizing a with
  | nil => rfl
  | cons e l ih =>
    by_cases h : p e
    · rw [List.foldl_cons, if_pos h, List.filter_cons, if_pos (by simpa using h),
        List.map_cons, List.foldl_cons]
      exact ih (max a (f e))
    · rw [List.foldl_cons, if_neg h, List.filter_cons, if_neg (by simpa using h)]
      exact ih a

/-- **C7 (amended).**  For an `Optimal` solve, each extractor's
`total_cost` is the re-summed `count × route_cost(warehouse, mode)` over its
own plan (costs re-looked-up from the catalog, first matching row) — but the
time model's recomputed `max_lead_time` is the maximum catalog lead time
over the edges whose RAW solver value is positive (the plan's edges are
those whose TRUNCATED value is positive, a strictly smaller set when the
solver emits a fractional value in (0, 1)). -/
theorem claim7_recomputed_totals (routes : List Route) (edges : List (String × String))
    (out : SolverOutcome) (h : out.status = "Optimal") :
    (extractCostModel routes edges out).total_cost =
      some (((extractCostModel routes edges out).plan.map
        fun p => (p.2 : ℚ) * costOf routes p.1.1 p.1.2).sum) ∧
    (extractTimeModel routes edges out).total_cost =
      some (((extractTimeModel routes edges out).plan.map
        fun p => (p.2 : ℚ) * costOf routes p.1.1 p.1.2).sum) ∧
    (extractTimeModel routes edges out).max_lead_time =
      some (((edges.filter fun e => decide (0 < out.values (Var.ship e.1 e.2))).map
        fun e => leadTimeOf routes e.1 e.2).foldl max 0) := by
  unfold extractCostModel extractTimeModel
  rw [if_pos h, if_pos h]
  exact ⟨rfl, rfl, congrArg some (foldl_max_if_eq_filter _ _ edges 0)⟩

/-! ### A fractional-output instance separating the plan's edges from the
edges entering `max_lead_time` -/

def c7Routes : List Route := [⟨"P", "W", "M1", 2, 10⟩, ⟨"P", "W", "M2", 9, 10⟩]

def c7Edges : List (String × String) := [("W", "M1"), ("W", "M2")]

/-- An `Optimal` outcome whose `("W","M2")` shipment value is the fraction
`1/2`. -/
def c7Out : SolverOutcome :=
  ⟨"Optimal", fun v =>
    if v = Var.ship "W" "M1" then 3 else if v = Var.ship "W" "M2" then 1 / 2 else 0⟩

theorem c7Out_status : c7Out.status = "Optimal" := rfl
theorem c7Out_v1 : c7Out.values (Var.ship "W" "M1") = 3 := rfl
theorem c7Out_v2 : c7Out.values (Var.ship "W" "M2") = 1 / 2 := rfl
theorem c7_lead1 : leadTimeOf c7Routes "W" "M1" = 2 := rfl
theorem c7_lead2 : leadTimeOf c7Routes "W" "M2" = 9 := rfl

theorem c7_pyInt1 : pyInt (c7Out.values (Var.ship "W" "M1")) = 3 := by
  rw [c7Out_v1, show (3 : ℚ) = ((3 : ℤ) : ℚ) by norm_num, pyInt_intCast]

theorem c7_pyInt2 : pyInt (c7Out.values (Var.ship "W" "M2")) = 0 := by
  rw [c7Out_v2]
  exact pyInt_unit_interval _ (by norm_num) (by norm_num)

theorem c7_plan : (extractTimeModel c7Routes c7Edges c7Out).plan = [(("W", "M1"), 3)] := by
  unfold extractTimeModel
  rw [if_pos c7Out_status]
  simp only [c7Edges, List.filterMap_cons, List.filterMap_nil, c7_pyInt1, c7_pyInt2]
  norm_num

theorem c7_ml : (extractTimeModel c7Routes c7Edges c7Out).max_lead_time = some 9 := by
  unfold extractTimeModel
  rw [if_pos c7Out_status]
  simp only [c7Edges, List.foldl_cons, List.foldl_nil, c7Out_v1, c7Out_v2, c7_lead1, c7_lead2]
  rw [if_pos (by norm_num : (0 : ℚ) < 3), if_pos (by norm_num : (0 : ℚ) < 1 / 2)]
  decide

/-- Counterexample to C7 as stated: the recomputed `max_lead_time` (9) is
NOT the maximum lead time among the edges with a positive count in the
returned plan (2), because the raw fractional value `1/2` on `("W","M2")`
passes the recomputation's positivity test while the truncated count 0
keeps the edge out of the plan. -/
theorem claim7_counterexample :
    (extractTimeModel c7Routes c7Edges c7Out).max_lead_time = some 9 ∧
    ((extractTimeModel c7Routes c7Edges c7Out).plan.map
      fun p => leadTimeOf c7Routes p.1.1 p.1.2).foldl max 0 = 2 ∧
    (9 : ℤ) ≠ 2 := by
  refine ⟨c7_ml, ?_, by decide⟩
  rw [c7_plan]
  decide

/-- Witness for C7 (amended) at the fractional instance. -/
theorem claim7_witness :
    (extractCostModel c7Routes c7Edges c7Out).total_cost =
      some (((extractCostModel c7Routes c7Edges c7Out).plan.map
        fun p => (p.2 : ℚ) * costOf c7Routes p.1.1 p.1.2).sum) ∧
    (extractTimeModel c7Routes c7Edges c7Out).total_cost =
      some (((extractTimeModel c7Routes c7Edges c7Out).plan.map
        fun p => (p.2 : ℚ) * costOf c7Routes p.1.1 p.1.2).sum) ∧
    (extractTimeModel c7Routes c7Edges c7Out).max_lead_time =
      some (((c7Edges.filter fun e => decide (0 < c7Out.values (Var.ship e.1 e.2))).map
        fun e => leadTimeOf c7Routes e.1 e.2).foldl max 0) :=
  claim7_recomputed_totals c7Routes c7Edges c7Out rfl

/-- On integral solver output, the plan's edge set is exactly the set of
edges with positive raw value. -/
theorem plan_keys_of_integral (out : SolverOutcome) (edges : List (String × String))
    (hint : ∀ e ∈ edges, IsIntVal (out.values (Var.ship e.1 e.2))) :
    (edges.filterMap fun e =>
        let val := pyInt (out.values (Var.ship e.1 e.2))
        if 0 < val then some (e, val) else none).map Prod.fst =
      edges.filter fun e => decide (0 < out.values (Var.ship e.1 e.2)) := by
  induction edges with
  | nil => rfl
  | cons e l ih =>
    obtain ⟨n, hn⟩ := hint e (List.mem_cons_self e l)
    have hpy : pyInt (out.values (Var.ship e.1 e.2)) = n := by rw [hn, pyInt_intCast]
    have hiff : 0 < pyInt (out.values (Var.ship e.1 e.2)) ↔
        0 < out.values (Var.ship e.1 e.2) := by
      rw [hpy, hn]
      exact_mod_cast Iff.rfl
    have hrest := ih fun d hd => hint d (List.mem_cons_of_mem _ hd)
    by_cases h : 0 < pyInt (out.values (Var.ship e.1 e.2))
    · rw [List.filterMap_cons, List.filter_cons]
      simp only [if_pos h]
      rw [if_pos (by simpa using hiff.mp h), List.map_cons, hrest]
    · rw [List.filterMap_cons, List.filter_cons]
      simp only [if_neg h]
      rw [if_neg (by simpa using fun hh => h (hiff.mpr hh)), hrest]

/-- **C10.**  In extraction from an `Optimal` solve: an edge whose raw
solver value lies strictly between 0 and 1 is omitted from the plan (the
value is truncated toward zero before the strict-positivity test), yet still
participates in the time model's `max_lead_time` recomputation, whose
positivity test uses the untruncated raw value; for all-integral solver
outputs the plan's edges and the recomputation's edges coincide; and on the
concrete fractional instance `c7Out` the recomputed `max_lead_time` (9)
reflects the edge `("W","M2")`, which appears nowhere in the returned
plan. -/
theorem claim10_truncation_asymmetry :
    (∀ (routes : List Route) (edges : List (String × String)) (out : SolverOutcome)
      (e : String × String), out.status = "Optimal" → e ∈ edges →
      0 < out.values (Var.ship e.1 e.2) → out.values (Var.ship e.1 e.2) < 1 →
      e ∉ (extractTimeModel routes edges out).plan.map Prod.fst ∧
      leadTimeOf routes e.1 e.2 ≤ (extractTimeModel routes edges out).max_lead_time.getD 0) ∧
    (∀ (routes : List Route) (edges : List (String × String)) (out : SolverOutcome),
      out.status = "Optimal" →
      (∀ e ∈ edges, IsIntVal (out.values (Var.ship e.1 e.2))) →
      (extractTimeModel routes edges out).plan.map Prod.fst =
        edges.filter fun e => decide (0 < out.values (Var.ship e.1 e.2))) ∧
    ((extractTimeModel c7Routes c7Edges c7Out).max_lead_time = some 9 ∧
      ("W", "M2") ∉ (extractTimeModel c7Routes c7Edges c7Out).plan.map Prod.fst) := by
  refine ⟨?_, ?_, c7_ml, by rw [c7_plan]; decide⟩
  · intro routes edges out e hst he h0 h1
    have hpy : pyInt (out.values (Var.ship e.1 e.2)) = 0 := pyInt_unit_interval _ h0 h1
    constructor
    · intro hmem
      unfold extractTimeModel at hmem
      rw [if_pos hst] at hmem
      simp only [List.mem_map, List.mem_filterMap] at hmem
      obtain ⟨pr, ⟨d, _, hfd⟩, hpr⟩ := hmem
      by_cases hd : 0 < pyInt (out.values (Var.ship d.1 d.2))
      · simp only [if_pos hd] at hfd
        obtain rfl := (Option.some.inj hfd).symm
        simp only at hpr
        rw [hpr] at hd
        rw [hpy] at hd
        exact absurd hd (by decide)
      · simp only [if_neg hd] at hfd
        exact Option.noConfusion hfd
    · unfold extractTimeModel
      rw [if_pos hst]
      simp only [Option.getD_some]
      rw [foldl_max_if_eq_filter (fun d => 0 < out.values (Var.ship d.1 d.2))
        (fun d => leadTimeOf routes d.1 d.2) edges 0]
      exact mem_le_foldl_max _ _ _
        (List.mem_map.mpr ⟨e, List.mem_filter.mpr ⟨he, by simpa using h0⟩, rfl⟩)
  · intro routes edges out hst hint
    unfold extractTimeModel
    rw [if_pos hst]
    exact plan_keys_of_integral out edges hint

/-! ## Duplicate catalog rows (claim C8) -/

/-- **C8 (amended).**  When the catalog holds several rows for one
`(destination, mode)` pair, the core's lookups for an eligible edge resolve
deterministically — but NOT all to the first matching row: the cost
coefficient attached to the shipment variable in the cost model's objective
is the cost of the LAST eligible matching row (Python dict overwriting in
the `route_costs` comprehension), while the lead time used in the time
model's `Max_Time` constraint and the cost and lead time used by
extraction's recomputation come from the FIRST matching row of the full
catalog (`.iloc[0]`).  (The time model's objective is the single variable
`max_time` and carries no cost coefficient at all.) -/
theorem claim8_duplicate_rows (routes : List Route) (modes : List Mode)
    (whs : List Warehouse) (inp : OptimizationInput) (Pc : CostProgram) (Pt : TimeProgram)
    (wh m : String)
    (hc : buildCostModel routes modes whs inp = some Pc)
    (ht : buildTimeModel routes modes whs inp = some Pt)
    (he : (wh, m) ∈ eligibleEdges routes inp) :
    alookup Pc.objective (Var.ship wh m) =
      ((getValidRoutes routes inp).reverse.find? fun t =>
        decide ((t.1, t.2.1) = (wh, m))).map (fun t => t.2.2) ∧
    maxTimeCon Pt.bigM
      (((routes.find? fun r => decide (r.destination = wh ∧ r.mode_name = m)).map
        Route.lead_time).getD 0) (wh, m) ∈ Pt.constraints ∧
    costOf routes wh m =
      ((routes.find? fun r => decide (r.destination = wh ∧ r.mode_name = m)).map
        Route.total_cost).getD 0 := by
  obtain rfl := buildCostModel_some hc
  obtain rfl := buildTimeModel_some ht
  refine ⟨?_, ?_, rfl⟩
  · have hpred : (fun p : (String × String) × ℚ =>
        decide (Var.ship p.1.1 p.1.2 = Var.ship wh m)) =
        fun p : (String × String) × ℚ => decide (p.1 = (wh, m)) := by
      funext p
      rw [decide_eq_decide]
      simp [Var.ship.injEq, Prod.ext_iff]
    calc alookup ((routeCosts routes inp).map fun p => (Var.ship p.1.1 p.1.2, p.2))
          (Var.ship wh m)
        = ((routeCosts routes inp).find? fun p =>
            decide (Var.ship p.1.1 p.1.2 = Var.ship wh m)).map Prod.snd :=
          alookup_map_pair (fun p => Var.ship p.1.1 p.1.2) Prod.snd (routeCosts routes inp)
            (Var.ship wh m)
      _ = ((routeCosts routes inp).find? fun p =>
            decide (p.1 = (wh, m))).map Prod.snd := by rw [hpred]
      _ = alookup (routeCosts routes inp) (wh, m) := rfl
      _ = alookup ((getValidRoutes routes inp).map fun t : String × String × ℚ =>
            ((t.1, t.2.1), t.2.2)).reverse (wh, m) := alookup_dictOfPairs _ _
      _ = alookup ((getValidRoutes routes inp).reverse.map fun t : String × String × ℚ =>
            ((t.1, t.2.1), t.2.2)) (wh, m) := by rw [List.map_reverse]
      _ = ((getValidRoutes routes inp).reverse.find? fun t =>
            decide ((t.1, t.2.1) = (wh, m))).map (fun t => t.2.2) :=
          alookup_map_pair (fun t : String × String × ℚ => (t.1, t.2.1))
            (fun t : String × String × ℚ => t.2.2) _ (wh, m)
  · exact List.mem_append_left _
      (List.mem_append_right _ (maxTimeCon_mem routes inp (wh, m) he))

/-! ### A duplicate-row instance: two catalog rows for `("A","T")` with
costs 100 (first) and 7 (second). -/

def c8Routes : List Route := [⟨"P", "A", "T", 2, 100⟩, ⟨"P", "A", "T", 2, 7⟩]

def c8Modes : List Mode := [⟨"T", 10⟩]

def c8Warehouses : List Warehouse := [⟨"A", 50, 0⟩]

def c8Input : OptimizationInput := ⟨10, 5, ["A"], [(("A", "T"), 5)]⟩

def c8CostProgram : CostProgram :=
  ⟨eligibleEdges c8Routes c8Input,
    (routeCosts c8Routes c8Input).map fun p => (Var.ship p.1.1 p.1.2, p.2),
    addConstraints c8Modes c8Warehouses c8Input (eligibleEdges c8Routes c8Input)⟩

def c8TimeProgram : TimeProgram :=
  ⟨eligibleEdges c8Routes c8Input, timeBigM c8Routes c8Input,
    timeLinkCons c8Routes c8Input ++ timeMaxCons c8Routes c8Input ++
      addConstraints c8Modes c8Warehouses c8Input (eligibleEdges c8Routes c8Input)⟩

/-- Counterexample to C8 as stated: with two rows for `("A","T")` (costs 100
then 7), the cost model's objective carries coefficient 7 — the LAST row's
cost — while the first matching row in catalog order has cost 100. -/
theorem claim8_counterexample :
    buildCostModel c8Routes c8Modes c8Warehouses c8Input = some c8CostProgram ∧
    c8CostProgram.objective = [(Var.ship "A" "T", 7)] ∧
    (c8Routes.find? fun r => decide (r.destination = "A" ∧ r.mode_name = "T")) =
      some ⟨"P", "A", "T", 2, 100⟩ ∧
    (7 : ℚ) ≠ 100 :=
  ⟨rfl, rfl, rfl, by norm_num⟩

/-- Witness for C8 (amended) at the duplicate-row instance. -/
theorem claim8_witness :
    alookup c8CostProgram.objective (Var.ship "A" "T") =
      ((getValidRoutes c8Routes c8Input).reverse.find? fun t =>
        decide ((t.1, t.2.1) = ("A", "T"))).map (fun t => t.2.2) ∧
    maxTimeCon c8TimeProgram.bigM
      (((c8Routes.find? fun r => decide (r.destination = "A" ∧ r.mode_name = "T")).map
        Route.lead_time).getD 0) ("A", "T") ∈ c8TimeProgram.constraints ∧
    costOf c8Routes "A" "T" =
      ((c8Routes.find? fun r => decide (r.destination = "A" ∧ r.mode_name = "T")).map
        Route.total_cost).getD 0 :=
  claim8_duplicate_rows c8Routes c8Modes c8Warehouses c8Input c8CostProgram c8TimeProgram
    "A" "T" rfl rfl (by decide)

/-! ## Claim C5: what the time model actually returns on Scenario B -/

/-- An `Optimal` solver outcome carrying the built time program's true
optimum on the scenario. -/
def scOptOutcome : SolverOutcome := ⟨"Optimal", scTimeOpt⟩

theorem scOptOutcome_values : scOptOutcome.values = scTimeOpt := rfl

theorem scOptOutcome_status : scOptOutcome.status = "Optimal" := rfl

theorem sc_lead_AR : leadTimeOf scRoutes "A" "Rail" = 5 := rfl
theorem sc_lead_AT : leadTimeOf scRoutes "A" "Truck" = 2 := rfl
theorem sc_lead_BT : leadTimeOf scRoutes "B" "Truck" = 1 := rfl

theorem sc_pyInt_AR : pyInt (scTimeOpt (Var.ship "A" "Rail")) = 6 := by
  rw [scTimeOpt_shipAR, show (6 : ℚ) = ((6 : ℤ) : ℚ) by norm_num, pyInt_intCast]

theorem sc_pyInt_AT : pyInt (scTimeOpt (Var.ship "A" "Truck")) = 0 := by
  rw [scTimeOpt_shipAT, show (0 : ℚ) = ((0 : ℤ) : ℚ) by norm_num, pyInt_intCast]

theorem sc_pyInt_BT : pyInt (scTimeOpt (Var.ship "B" "Truck")) = 0 := by
  rw [scTimeOpt_shipBT, show (0 : ℚ) = ((0 : ℤ) : ℚ) by norm_num, pyInt_intCast]

/-- Extracting the built program's optimum yields the plan `A:Rail = 6` with
recomputed `max_lead_time = 5` — not the expected `B:Truck = 15`,
`A:Truck = 15` with `max_lead_time = 2`. -/
theorem sc_opt_extraction :
    (extractTimeModel scRoutes scTimeProgram.edges scOptOutcome).plan =
      [(("A", "Rail"), 6)] ∧
    (extractTimeModel scRoutes scTimeProgram.edges scOptOutcome).max_lead_time = some 5 := by
  have hedges : scTimeProgram.edges = [("A", "Rail"), ("A", "Truck"), ("B", "Truck")] := rfl
  constructor
  · unfold extractTimeModel
    rw [if_pos scOptOutcome_status, hedges]
    simp only [List.filterMap_cons, List.filterMap_nil, scOptOutcome_values, sc_pyInt_AR,
      sc_pyInt_AT, sc_pyInt_BT]
    norm_num
  · unfold extractTimeModel
    rw [if_pos scOptOutcome_status, hedges]
    simp only [List.foldl_cons, List.foldl_nil, scOptOutcome_values, scTimeOpt_shipAR,
      scTimeOpt_shipAT, scTimeOpt_shipBT, sc_lead_AR, sc_lead_AT, sc_lead_BT]
    rw [if_pos (by norm_num : (0 : ℚ) < 6), if_neg (by norm_num : ¬(0 : ℚ) < 0),
      if_neg (by norm_num : ¬(0 : ℚ) < 0)]
    decide

/-- **C5 (code bug).**  On the Scenario A/B instance the built time program
cannot return the spec's expected result: no feasible assignment ships 15
vehicles on `("B","Truck")` and 15 on `("A","Truck")` (the expected plan is
infeasible for the BUILT program); every feasible assignment has objective
`max_time ≥ 5`; the bound 5 is attained by the feasible assignment
`scTimeOpt` (6 Rail vehicles from A); and extracting that optimum returns
plan `A:Rail = 6` with recomputed `max_lead_time = 5` — not the claimed
plan with `max_lead_time = 2`. -/
theorem claim5_scenarioB_bug :
    (∀ x : Var → ℚ, TimeFeasible scTimeProgram x →
      ¬(x (Var.ship "B" "Truck") = 15 ∧ x (Var.ship "A" "Truck") = 15)) ∧
    (∀ x : Var → ℚ, TimeFeasible scTimeProgram x → 5 ≤ x Var.maxTime) ∧
    TimeFeasible scTimeProgram scTimeOpt ∧
    scTimeOpt Var.maxTime = 5 ∧
    (extractTimeModel scRoutes scTimeProgram.edges scOptOutcome).plan =
      [(("A", "Rail"), 6)] ∧
    (extractTimeModel scRoutes scTimeProgram.edges scOptOutcome).max_lead_time = some 5 ∧
    (5 : ℤ) ≠ 2 := by
  refine ⟨?_, ?_, scTimeOpt_feasible, scTimeOpt_maxT, sc_opt_extraction.1,
    sc_opt_extraction.2, by decide⟩
  · intro x hx hcontra
    have h := (sc_time_bounds x hx).2.2.1
    rw [hcontra.1] at h
    norm_num at h
  · intro x hx
    exact (sc_time_bounds x hx).2.2.2
